import Mathlib

/-!
Verification development for the multi-agent deliberation system.

The definitions below are a shallow embedding of the Python source:

* `zone1_hive_collective/consensus_builder/consensus_engine.py`
* `zone1_hive_collective/debate_engine/debate_coordinator.py`
* `zone1_hive_collective/personas/base_persona.py`
* `zone1_hive_collective/hive_manager.py`
* `core/system_manager.py`

Stateful loops become explicit recursion, raised exceptions become
`Except String`, Python floats over small counts become `ℚ`, and a
participant whose behaviour can vary between rounds is modelled as a
function from the round number and persona name to its outcome (any
concrete execution trace of the source corresponds to one such function).
Python expressions of the form `list(set(xs))[:n]` iterate a hash set
whose order is unspecified; they are modelled by first-occurrence
deduplication (`list_set`), which agrees with the source on every
order-independent property (membership, emptiness, size bound,
duplicate freedom).
-/

namespace MultiAgent

/-- Structured consensus vote, the fields of the dict built by
`BasePersona.provide_consensus_input` that `ConsensusEngine` reads. -/
structure ConsensusInput where
  agreement : Bool
  confidence : ℚ
  support_reasons : List String
  concerns : List String
  suggested_modifications : List String
  critical_issues : List String
deriving Repr, DecidableEq

/-- Entry stored in `round_result["persona_inputs"]`: either the vote dict, or
the error record `\x7b"error": msg, "agreement": False, "confidence": 0.0\x7d`
written when the persona call raised. -/
inductive RecordedInput where
  | ok (input : ConsensusInput)
  | errorEntry (msg : String)
deriving Repr, DecidableEq

/-- The `agreement` field of a recorded input (`False` in the error record). -/
def RecordedInput.agreement_value : RecordedInput → Bool
  | .ok input => input.agreement
  | .errorEntry _ => false

/-- The `confidence` field of a recorded input (`0.0` in the error record). -/
def RecordedInput.confidence_value : RecordedInput → ℚ
  | .ok input => input.confidence
  | .errorEntry _ => 0

/-- Result dict of `ConsensusEngine._conduct_consensus_round`. -/
structure RoundResult where
  round_number : ℕ
  persona_inputs : List (String × RecordedInput)
  agreements : ℕ
  disagreements : ℕ
  consensus_score : ℚ
  suggested_modifications : List String
  critical_issues : List String
  support_reasons : List String
  concerns : List String
deriving Repr, DecidableEq

/-- Initial round dict (consensus_engine.py lines 151-161). -/
def RoundResult.init (round_num : ℕ) : RoundResult :=
  { round_number := round_num
    persona_inputs := []
    agreements := 0
    disagreements := 0
    consensus_score := 0
    suggested_modifications := []
    critical_issues := []
    support_reasons := []
    concerns := [] }

/-- Whether an outcome is counted as an agreement: a successful vote with
`agreement` true; a raised error never is. -/
def agreement_of : Except String ConsensusInput → Bool
  | .ok input => input.agreement
  | .error _ => false

/-- How an outcome is recorded in `persona_inputs`. -/
def recordOf : Except String ConsensusInput → RecordedInput
  | .ok input => .ok input
  | .error e => .errorEntry e

/-- Body of the per-persona loop of `_conduct_consensus_round`
(consensus_engine.py lines 164-213): tally the vote and concatenate the
feedback lists, or on error record the error entry and one disagreement. -/
def processPersona (acc : RoundResult) (p : String × Except String ConsensusInput) :
    RoundResult :=
  match p.2 with
  | .ok input =>
      { acc with
        persona_inputs := acc.persona_inputs ++ [(p.1, .ok input)]
        agreements := if input.agreement then acc.agreements + 1 else acc.agreements
        disagreements := if input.agreement then acc.disagreements else acc.disagreements + 1
        suggested_modifications := acc.suggested_modifications ++ input.suggested_modifications
        critical_issues := acc.critical_issues ++ input.critical_issues
        support_reasons := acc.support_reasons ++ input.support_reasons
        concerns := acc.concerns ++ input.concerns }
  | .error e =>
      { acc with
        persona_inputs := acc.persona_inputs ++ [(p.1, .errorEntry e)]
        disagreements := acc.disagreements + 1 }

/-- Embedding of `ConsensusEngine._conduct_consensus_round`: fold the persona outcomes of
one voting round, then set `consensus_score = agreements / total_personas`
when the persona map is non-empty. -/
def conduct_consensus_round (round_num : ℕ)
    (inputs : List (String × Except String ConsensusInput)) : RoundResult :=
  let r := inputs.foldl processPersona (RoundResult.init round_num)
  if 0 < inputs.length then
    { r with consensus_score := (r.agreements : ℚ) / (inputs.length : ℚ) }
  else r

section RoundLemmas

theorem foldl_round_agreements (l : List (String × Except String ConsensusInput))
    (acc : RoundResult) :
    (l.foldl processPersona acc).agreements
      = acc.agreements + l.countP (fun p => agreement_of p.2) := by
  induction l generalizing acc with
  | nil => simp
  | cons p l ih =>
      cases hp : p.2 with
      | ok input =>
          cases hagr : input.agreement <;>
            simp [processPersona, hp, ih, agreement_of, List.countP_cons, hagr] <;> omega
      | error e =>
          simp [processPersona, hp, ih, agreement_of, List.countP_cons]

theorem foldl_round_disagreements (l : List (String × Except String ConsensusInput))
    (acc : RoundResult) :
    (l.foldl processPersona acc).disagreements
      = acc.disagreements + l.countP (fun p => !agreement_of p.2) := by
  induction l generalizing acc with
  | nil => simp
  | cons p l ih =>
      cases hp : p.2 with
      | ok input =>
          cases hagr : input.agreement <;>
            simp [processPersona, hp, ih, agreement_of, List.countP_cons, hagr] <;> omega
      | error e =>
          simp [processPersona, hp, ih, agreement_of, List.countP_cons]
          omega

theorem foldl_round_inputs (l : List (String × Except String ConsensusInput))
    (acc : RoundResult) :
    (l.foldl processPersona acc).persona_inputs
      = acc.persona_inputs ++ l.map (fun p => (p.1, recordOf p.2)) := by
  induction l generalizing acc with
  | nil => simp
  | cons p l ih =>
      cases hp : p.2 with
      | ok input => simp [processPersona, hp, ih, recordOf]
      | error e => simp [processPersona, hp, ih, recordOf]

theorem foldl_round_score (l : List (String × Except String ConsensusInput))
    (acc : RoundResult) :
    (l.foldl processPersona acc).consensus_score = acc.consensus_score := by
  induction l generalizing acc with
  | nil => rfl
  | cons p l ih =>
      cases hp : p.2 with
      | ok input => simp [processPersona, hp, ih]
      | error e => simp [processPersona, hp, ih]

theorem countP_add_countP_not {α : Type} (p : α → Bool) (l : List α) :
    l.countP p + l.countP (fun a => !p a) = l.length := by
  induction l with
  | nil => simp
  | cons a l ih =>
      cases ha : p a <;> simp [List.countP_cons, ha] <;> omega

theorem round_agreements (round_num : ℕ)
    (inputs : List (String × Except String ConsensusInput)) :
    (conduct_consensus_round round_num inputs).agreements
      = inputs.countP (fun p => agreement_of p.2) := by
  unfold conduct_consensus_round
  split <;> simp [foldl_round_agreements, RoundResult.init]

theorem round_disagreements (round_num : ℕ)
    (inputs : List (String × Except String ConsensusInput)) :
    (conduct_consensus_round round_num inputs).disagreements
      = inputs.countP (fun p => !agreement_of p.2) := by
  unfold conduct_consensus_round
  split <;> simp [foldl_round_disagreements, RoundResult.init]

theorem round_persona_inputs (round_num : ℕ)
    (inputs : List (String × Except String ConsensusInput)) :
    (conduct_consensus_round round_num inputs).persona_inputs
      = inputs.map (fun p => (p.1, recordOf p.2)) := by
  unfold conduct_consensus_round
  split <;> simp [foldl_round_inputs, RoundResult.init]

theorem round_score (round_num : ℕ)
    (inputs : List (String × Except String ConsensusInput)) :
    (conduct_consensus_round round_num inputs).consensus_score
      = if 0 < inputs.length then
          (inputs.countP (fun p => agreement_of p.2) : ℚ) / (inputs.length : ℚ)
        else 0 := by
  unfold conduct_consensus_round
  split <;> simp [foldl_round_score, foldl_round_agreements, RoundResult.init, *]

end RoundLemmas

/-- Model of the Python expression `list(set(xs))`: keep the first occurrence
of every element (the hash-set iteration order of the source is unspecified;
every property proved about `list_set` below is order-independent). -/
def list_set_aux (seen : List String) : List String → List String
  | [] => []
  | a :: l => if a ∈ seen then list_set_aux seen l else a :: list_set_aux (a :: seen) l

/-- First-occurrence deduplication, the determinization of `list(set(xs))`. -/
def list_set (xs : List String) : List String := list_set_aux [] xs

theorem list_set_aux_eq_nil (seen : List String) (xs : List String) :
    list_set_aux seen xs = [] ↔ ∀ a ∈ xs, a ∈ seen := by
  induction xs generalizing seen with
  | nil => simp [list_set_aux]
  | cons a l ih =>
      by_cases ha : a ∈ seen
      · simp [list_set_aux, ha, ih]
      · simp [list_set_aux, ha]

theorem list_set_eq_nil (xs : List String) : list_set xs = [] ↔ xs = [] := by
  rw [list_set, list_set_aux_eq_nil]
  constructor
  · intro h
    cases xs with
    | nil => rfl
    | cons a l => exact absurd (h a (by simp)) (by simp)
  · intro h
    subst h
    simp

theorem list_set_aux_nodup (seen : List String) (xs : List String) :
    (list_set_aux seen xs).Nodup ∧ ∀ a ∈ list_set_aux seen xs, a ∉ seen := by
  induction xs generalizing seen with
  | nil => simp [list_set_aux]
  | cons a l ih =>
      by_cases ha : a ∈ seen
      · simpa [list_set_aux, ha] using ih seen
      · obtain ⟨hnd, hout⟩ := ih (a :: seen)
        refine ⟨?_, ?_⟩
        · simp only [list_set_aux, ha, if_false, List.nodup_cons]
          exact ⟨fun hmem => (hout a hmem) (by simp), hnd⟩
        · intro b hb
          simp only [list_set_aux, ha, if_false, List.mem_cons] at hb
          rcases hb with rfl | hb
          · exact ha
          · intro hbseen
            exact (hout b hb) (by simp [hbseen])

theorem list_set_nodup (xs : List String) : (list_set xs).Nodup :=
  (list_set_aux_nodup [] xs).1

/-- Proposed decision evolving across consensus rounds.  The dict built by
`ConsensusEngine._create_proposed_decision` carries the synthesis fields and
two fixed templates; `_update_proposal` later adds three optional entries
(`implementation_plan["modifications"]`, `critical_issues_addressed`,
`strengths`), modelled as `Option` fields that start absent.  The
`implementation_plan` payload taken from the synthesis is opaque to every
claim and is carried as an uninterpreted string. -/
structure Proposal where
  approach : String
  core_principles : List String
  key_innovations : List String
  implementation_plan : String
  implementation_plan_modifications : Option (List String)
  success_criteria : List String
  risk_mitigation : List String
  critical_issues_addressed : Option (List String)
  strengths : Option (List String)
deriving Repr, DecidableEq

/-- The `integrated_solution` dict built by
`DebateCoordinator._build_integrated_solution`. -/
structure IntegratedSolution where
  core_principles : List String
  key_innovations : List String
  balanced_approaches : List String
  implementation_priorities : List String
deriving Repr, DecidableEq

/-- Synthesis results dict (`DebateCoordinator.synthesize_ideas`), restricted
to the fields read downstream; `implementation_framework` is an opaque
payload. -/
structure SynthesisResults where
  integrated_solution : IntegratedSolution
  resolved_conflicts : List String
  remaining_tensions : List String
  implementation_framework : String
deriving Repr, DecidableEq

/-- Embedding of `ConsensusEngine._create_proposed_decision`. -/
def create_proposed_decision (synthesis : SynthesisResults) : Proposal :=
  { approach := "Integrated solution based on collective analysis"
    core_principles := synthesis.integrated_solution.core_principles
    key_innovations := synthesis.integrated_solution.key_innovations
    implementation_plan := synthesis.implementation_framework
    implementation_plan_modifications := none
    success_criteria :=
      ["Technical feasibility validated", "Stakeholder requirements met",
       "Quality standards achieved", "Resource constraints respected"]
    risk_mitigation :=
      ["Prototype critical components", "Iterative development approach",
       "Regular stakeholder feedback", "Continuous quality monitoring"]
    critical_issues_addressed := none
    strengths := none }

/-- Embedding of `ConsensusEngine._update_proposal`: fold a round of feedback into the
proposal, truncating each list as in the source. -/
def update_proposal (current : Proposal) (round : RoundResult) : Proposal :=
  let p1 :=
    if round.suggested_modifications ≠ [] then
      { current with
        implementation_plan_modifications := some (round.suggested_modifications.take 3) }
    else current
  let p2 :=
    if round.critical_issues ≠ [] then
      { p1 with critical_issues_addressed := some (round.critical_issues.take 2) }
    else p1
  if round.support_reasons ≠ [] then
    { p2 with strengths := some (round.support_reasons.take 3) }
  else p2

/-- Source constant `self.consensus_threshold` (consensus_engine.py line 19). -/
def consensus_threshold : ℚ := 8 / 10

/-- Source constant `self.max_consensus_rounds` (consensus_engine.py line 20). -/
def max_consensus_rounds : ℕ := 3

/-- Per-round outcomes of one voting round: each persona in `names` is asked
for its vote through `behavior`. -/
def roundInputs (names : List String)
    (behavior : ℕ → String → Except String ConsensusInput) (round_num : ℕ) :
    List (String × Except String ConsensusInput) :=
  names.map fun n => (n, behavior round_num n)

/-- The `for round_num in range(self.max_consensus_rounds)` loop of
`ConsensusEngine.build_consensus`: run a round; if its score reaches the
threshold stop with that score (the current proposal is not updated again);
otherwise fold the feedback into the proposal and continue.  Returns the
executed rounds, the final value of `current_proposal` and the reached score
if any. -/
def runConsensusRounds (names : List String)
    (behavior : ℕ → String → Except String ConsensusInput) :
    ℕ → ℕ → Proposal → List RoundResult → List RoundResult × Proposal × Option ℚ
  | 0, _, proposal, acc => (acc, proposal, none)
  | fuel + 1, round_num, proposal, acc =>
      let r := conduct_consensus_round round_num (roundInputs names behavior round_num)
      if consensus_threshold ≤ r.consensus_score then
        (acc ++ [r], proposal, some r.consensus_score)
      else
        runConsensusRounds names behavior fuel (round_num + 1)
          (update_proposal proposal r) (acc ++ [r])

/-- The fallback decision dict of `ConsensusEngine._handle_no_consensus`. -/
structure FallbackDecision where
  approach : String
  primary_solution : Proposal
  dissenting_views : List String
  unresolved_issues : List String
  recommendation : String
deriving Repr, DecidableEq

/-- Field `consensus_results` `final_decision`: the proposal itself on consensus,
the fallback wrapper otherwise. -/
inductive FinalDecision where
  | consensus (proposal : Proposal)
  | fallback (decision : FallbackDecision)
deriving Repr, DecidableEq

/-- Embedding of `ConsensusEngine._handle_no_consensus` (fallback decision part). -/
def handle_no_consensus (final_proposal : Proposal) (rounds : List RoundResult) :
    FallbackDecision :=
  let dissenting_opinions := rounds.flatMap fun r => r.concerns
  let remaining_concerns := rounds.flatMap fun r => r.critical_issues
  { approach := "Majority decision with minority concerns noted"
    primary_solution := final_proposal
    dissenting_views := (list_set dissenting_opinions).take 3
    unresolved_issues := (list_set remaining_concerns).take 3
    recommendation := "Proceed with prototype to validate disputed areas" }

/-- Consensus results dict of `ConsensusEngine.build_consensus`, restricted to
the fields the claims read (the audit strings `reasoning`,
`decision_rationale` and the `implementation_guidance` template are fixed
text derived from the same data and are elided). -/
structure ConsensusResults where
  consensus_reached : Bool
  confidence_score : ℚ
  consensus_rounds : List RoundResult
  final_decision : FinalDecision
  areas_of_agreement : List String
  dissenting_opinions : List String
deriving Repr, DecidableEq

/-- Terminal assembly of `build_consensus`: `_finalize_consensus` when a score
reached the threshold, `_handle_no_consensus` otherwise. -/
def assemble_consensus (rounds : List RoundResult) (final_proposal : Proposal) :
    Option ℚ → ConsensusResults
  | some score =>
      { consensus_reached := true
        confidence_score := score
        consensus_rounds := rounds
        final_decision := .consensus final_proposal
        areas_of_agreement := (list_set (rounds.flatMap fun r => r.support_reasons)).take 5
        dissenting_opinions := [] }
  | none =>
      { consensus_reached := false
        confidence_score := 0
        consensus_rounds := rounds
        final_decision := .fallback (handle_no_consensus final_proposal rounds)
        areas_of_agreement := []
        dissenting_opinions := (list_set (rounds.flatMap fun r => r.concerns)).take 3 }

/-- Embedding of `ConsensusEngine.build_consensus`. -/
def build_consensus (names : List String)
    (behavior : ℕ → String → Except String ConsensusInput)
    (synthesis : SynthesisResults) : ConsensusResults :=
  let proposed := create_proposed_decision synthesis
  let t := runConsensusRounds names behavior max_consensus_rounds 1 proposed []
  assemble_consensus t.1 t.2.1 t.2.2

section ConsensusLoopLemmas

theorem mem_dropLast_imp_mem {α : Type} {a : α} :
    ∀ {l : List α}, a ∈ l.dropLast → a ∈ l
  | [], h => by simpa using h
  | [_], h => by simpa using h
  | x :: y :: l, h => by
      rw [List.dropLast_cons₂, List.mem_cons] at h
      rcases h with rfl | h
      · exact List.mem_cons_self _ _
      · exact List.mem_cons_of_mem _ (mem_dropLast_imp_mem h)

theorem runConsensusRounds_length (names : List String)
    (behavior : ℕ → String → Except String ConsensusInput) (fuel : ℕ) :
    ∀ (round_num : ℕ) (proposal : Proposal) (acc : List RoundResult),
      (runConsensusRounds names behavior fuel round_num proposal acc).1.length
        ≤ acc.length + fuel := by
  induction fuel with
  | zero => intro round_num proposal acc; simp [runConsensusRounds]
  | succ fuel ih =>
      intro round_num proposal acc
      rw [runConsensusRounds]
      split
      · simp
      · calc (runConsensusRounds names behavior fuel (round_num + 1) _
            (acc ++ [conduct_consensus_round round_num
              (roundInputs names behavior round_num)])).1.length
              ≤ (acc ++ [_]).length + fuel := ih _ _ _
          _ = acc.length + (fuel + 1) := by simp; omega

theorem runConsensusRounds_cases (names : List String)
    (behavior : ℕ → String → Except String ConsensusInput) (fuel : ℕ) :
    ∀ (round_num : ℕ) (proposal : Proposal) (acc : List RoundResult),
      (∀ r ∈ acc, r.consensus_score < consensus_threshold) →
      (let t := runConsensusRounds names behavior fuel round_num proposal acc
       (t.2.2 = none ∧ ∀ r ∈ t.1, r.consensus_score < consensus_threshold) ∨
       (∃ r, t.2.2 = some r.consensus_score ∧ t.1.getLast? = some r ∧ r ∈ t.1 ∧
          consensus_threshold ≤ r.consensus_score ∧
          ∀ x ∈ t.1.dropLast, x.consensus_score < consensus_threshold)) := by
  induction fuel with
  | zero =>
      intro round_num proposal acc hacc
      exact Or.inl ⟨rfl, hacc⟩
  | succ fuel ih =>
      intro round_num proposal acc hacc
      rw [runConsensusRounds]
      by_cases hr : consensus_threshold ≤
          (conduct_consensus_round round_num (roundInputs names behavior round_num)).consensus_score
      · rw [if_pos hr]
        refine Or.inr ⟨_, rfl, List.getLast?_concat _, ?_, hr, ?_⟩
        · simp
        · intro x hx
          rw [List.dropLast_concat] at hx
          exact hacc x hx
      · rw [if_neg hr]
        refine ih (round_num + 1) _ _ ?_
        intro x hx
        rcases List.mem_append.mp hx with hx | hx
        · exact hacc x hx
        · rw [List.mem_singleton.mp hx]
          exact lt_of_not_le hr

end ConsensusLoopLemmas

/-- C1. For every participant set, every participant behaviour and every
synthesis input, `build_consensus` executes at most 3 voting rounds;
`consensus_reached` is `true` exactly when some executed round reached a
consensus score of at least `0.8`; every executed round but the last scored
below the threshold (so the engine stops at the first qualifying round); and
when consensus is reached the reported `confidence_score` is the score of
that last executed round. -/
theorem consensus_engine_round_budget_and_threshold (names : List String)
    (behavior : ℕ → String → Except String ConsensusInput)
    (synthesis : SynthesisResults) :
    (build_consensus names behavior synthesis).consensus_rounds.length ≤ 3
    ∧ ((build_consensus names behavior synthesis).consensus_reached = true ↔
        ∃ r ∈ (build_consensus names behavior synthesis).consensus_rounds,
          consensus_threshold ≤ r.consensus_score)
    ∧ (∀ r ∈ (build_consensus names behavior synthesis).consensus_rounds.dropLast,
        r.consensus_score < consensus_threshold)
    ∧ ((build_consensus names behavior synthesis).consensus_reached = false ∨
        ∃ r, (build_consensus names behavior synthesis).consensus_rounds.getLast? = some r
          ∧ consensus_threshold ≤ r.consensus_score
          ∧ (build_consensus names behavior synthesis).confidence_score
              = r.consensus_score) := by
  have hlen := runConsensusRounds_length names behavior max_consensus_rounds 1
    (create_proposed_decision synthesis) []
  have hcases := runConsensusRounds_cases names behavior max_consensus_rounds 1
    (create_proposed_decision synthesis) [] (by intro r hr; simp at hr)
  set t := runConsensusRounds names behavior max_consensus_rounds 1
    (create_proposed_decision synthesis) [] with ht
  have hbc : build_consensus names behavior synthesis
      = assemble_consensus t.1 t.2.1 t.2.2 := rfl
  rcases hcases with ⟨hnone, hall⟩ | ⟨r, hsome, hlast, hmem, hthr, hdrop⟩
  · rw [hbc, hnone]
    refine ⟨by simpa [max_consensus_rounds] using hlen, ?_, ?_, ?_⟩
    · simp only [assemble_consensus]
      constructor
      · intro h; exact absurd h (by simp)
      · rintro ⟨r, hr, hthr⟩
        exact absurd (lt_of_lt_of_le (hall r hr) hthr) (lt_irrefl _)
    · intro r hr
      exact hall r (mem_dropLast_imp_mem hr)
    · left; rfl
  · rw [hbc, hsome]
    refine ⟨by simpa [max_consensus_rounds] using hlen, ?_, ?_, ?_⟩
    · simp only [assemble_consensus]
      exact ⟨fun _ => ⟨r, hmem, hthr⟩, fun _ => trivial⟩
    · intro x hx
      exact hdrop x hx
    · right
      exact ⟨r, hlast, hthr, rfl⟩

/-- A concrete instantiation of C1: with five personas that all vote agree in
round 1, the engine runs a single round and reports consensus. -/
theorem consensus_engine_round_budget_instance :
    (build_consensus ["architect", "innovator", "pragmatist", "quality_advocate",
        "user_champion"]
      (fun _ _ => Except.ok ⟨true, 9/10, [], [], [], []⟩)
      ⟨⟨[], [], [], []⟩, [], [], ""⟩).consensus_rounds.length ≤ 3 :=
  (consensus_engine_round_budget_and_threshold _ _ _).1

/-- Structured discussion contribution, the list-valued fields of the dict
built by `BasePersona.participate_in_discussion` that the coordinator reads. -/
structure Contribution where
  agreements : List String
  disagreements : List String
  challenges : List String
  improvements : List String
deriving Repr, DecidableEq

/-- Entry stored in `round_result["contributions"]`: the contribution dict, or
the error record written when the persona call raised (which carries no
agreement or disagreement items). -/
inductive RecordedContribution where
  | ok (contribution : Contribution)
  | errorEntry (msg : String)
deriving Repr, DecidableEq

/-- Result dict of `DebateCoordinator._conduct_discussion_round`.  Unlike a
consensus round, `agreements` and `disagreements` here are the concatenated
free-text items collected from the contributions, not per-participant
tallies. -/
structure DiscussionRoundResult where
  round_number : ℕ
  contributions : List (String × RecordedContribution)
  agreements : List String
  disagreements : List String
  challenges : List String
  improvements : List String
deriving Repr, DecidableEq

/-- Body of the per-persona loop of `_conduct_discussion_round`
(debate_coordinator.py lines 113-139): concatenate the contribution lists;
on error record only the error entry. -/
def processContribution (acc : DiscussionRoundResult)
    (p : String × Except String Contribution) : DiscussionRoundResult :=
  match p.2 with
  | .ok c =>
      { acc with
        contributions := acc.contributions ++ [(p.1, .ok c)]
        agreements := acc.agreements ++ c.agreements
        disagreements := acc.disagreements ++ c.disagreements
        challenges := acc.challenges ++ c.challenges
        improvements := acc.improvements ++ c.improvements }
  | .error e =>
      { acc with contributions := acc.contributions ++ [(p.1, .errorEntry e)] }

/-- Embedding of `DebateCoordinator._conduct_discussion_round`. -/
def conduct_discussion_round (round_num : ℕ)
    (inputs : List (String × Except String Contribution)) : DiscussionRoundResult :=
  inputs.foldl processContribution
    { round_number := round_num, contributions := [], agreements := [],
      disagreements := [], challenges := [], improvements := [] }

/-- C2 amended.  In every consensus round the tally invariant holds:
`agreements + disagreements` equals the number of participants, the recorded
per-persona inputs are exactly one record per participant in order, and the
error record counts as a disagreement with `agreement = False` and
`confidence = 0`. -/
theorem consensus_round_tally_invariant (round_num : ℕ)
    (inputs : List (String × Except String ConsensusInput)) :
    (conduct_consensus_round round_num inputs).agreements
        + (conduct_consensus_round round_num inputs).disagreements = inputs.length
    ∧ (conduct_consensus_round round_num inputs).persona_inputs
        = inputs.map (fun p => (p.1, recordOf p.2))
    ∧ (∀ msg : String, (RecordedInput.errorEntry msg).agreement_value = false
        ∧ (RecordedInput.errorEntry msg).confidence_value = 0)
    ∧ (∀ msg : String, recordOf (Except.error msg) = RecordedInput.errorEntry msg
        ∧ agreement_of (Except.error msg) = false) := by
  refine ⟨?_, round_persona_inputs round_num inputs, ?_, ?_⟩
  · rw [round_agreements, round_disagreements]
    exact countP_add_countP_not _ inputs
  · intro msg
    exact ⟨rfl, rfl⟩
  · intro msg
    exact ⟨rfl, rfl⟩

/-- Instantiation of the consensus-round tally invariant on a round with one
agreeing persona and one erroring persona. -/
theorem consensus_round_tally_invariant_instance :
    (conduct_consensus_round 1 [("architect", Except.ok ⟨true, 9/10, [], [], [], []⟩),
        ("innovator", Except.error "timeout")]).agreements
      + (conduct_consensus_round 1 [("architect", Except.ok ⟨true, 9/10, [], [], [], []⟩),
        ("innovator", Except.error "timeout")]).disagreements = 2 :=
  (consensus_round_tally_invariant 1 _).1

/-- C2 counterexample.  In a discussion round of the same deliberation session
the invariant fails: one participant whose call raises yields a completed
round with zero collected agreements and zero collected disagreements, while
the session has one participant. -/
theorem discussion_round_tally_counterexample :
    (conduct_discussion_round 1 [("architect", Except.error "timeout")]).agreements.length
      + (conduct_discussion_round 1
          [("architect", Except.error "timeout")]).disagreements.length ≠ 1 := by
  decide

/-- C3 amended.  Permuting the participant invocation order of a round leaves
the aggregate tallies unchanged: agreements, disagreements and the consensus
score are invariant under any permutation of the per-participant outcomes. -/
theorem round_counts_permutation_invariant (round_num round_num2 : ℕ)
    (inputs inputs2 : List (String × Except String ConsensusInput))
    (h : inputs.Perm inputs2) :
    (conduct_consensus_round round_num inputs).agreements
        = (conduct_consensus_round round_num2 inputs2).agreements
    ∧ (conduct_consensus_round round_num inputs).disagreements
        = (conduct_consensus_round round_num2 inputs2).disagreements
    ∧ (conduct_consensus_round round_num inputs).consensus_score
        = (conduct_consensus_round round_num2 inputs2).consensus_score := by
  refine ⟨?_, ?_, ?_⟩
  · rw [round_agreements, round_agreements]
    exact h.countP_eq _
  · rw [round_disagreements, round_disagreements]
    exact h.countP_eq _
  · rw [round_score, round_score, h.countP_eq, h.length_eq]

/-- Instantiation of the permutation invariance on a two-persona round and its
reversal. -/
theorem round_counts_permutation_invariant_instance :
    (conduct_consensus_round 1 [("architect", Except.ok ⟨true, 9/10, [], [], [], []⟩),
        ("innovator", Except.error "timeout")]).consensus_score
      = (conduct_consensus_round 1 [("innovator", Except.error "timeout"),
        ("architect", Except.ok ⟨true, 9/10, [], [], [], []⟩)]).consensus_score :=
  (round_counts_permutation_invariant 1 1 _ _ (List.Perm.swap _ _ [])).2.2

/-- Five-persona roster used in the concrete counterexamples (the persona map
built by `HiveCollectiveManager.initialize`). -/
def roster : List String :=
  ["architect", "innovator", "pragmatist", "quality_advocate", "user_champion"]

/-- The same roster in a different invocation order. -/
def roster_swapped : List String :=
  ["user_champion", "innovator", "pragmatist", "quality_advocate", "architect"]

/-- Behaviour exhibiting order dependence of the final decision: in round 1
every persona votes disagree and suggests one modification named after
itself; in round 2 every persona votes agree. -/
def orderBehavior : ℕ → String → Except String ConsensusInput :=
  fun round_num name =>
    if round_num = 1 then Except.ok ⟨false, 3/10, [], [], [name], []⟩
    else Except.ok ⟨true, 8/10, [], [], [], []⟩

/-- Empty synthesis input used by the concrete counterexamples. -/
def emptySynthesis : SynthesisResults := ⟨⟨[], [], [], []⟩, [], [], ""⟩

/-- C3 counterexample.  The claim extends permutation invariance to the final
decision, but the proposal update truncates the concatenated modification
list to its first three entries in invocation order: with the two rosters
above (one a permutation of the other) and identical per-participant outputs,
consensus is reached in round 2 in both runs yet the two final decisions
differ. -/
theorem final_decision_order_dependence :
    roster.Perm roster_swapped
    ∧ (build_consensus roster orderBehavior emptySynthesis).consensus_reached = true
    ∧ (build_consensus roster_swapped orderBehavior emptySynthesis).consensus_reached = true
    ∧ (build_consensus roster orderBehavior emptySynthesis).final_decision
        ≠ (build_consensus roster_swapped orderBehavior emptySynthesis).final_decision := by
  refine ⟨by decide, ?_, ?_, ?_⟩ <;>
    (norm_num [build_consensus, max_consensus_rounds, runConsensusRounds, assemble_consensus,
      conduct_consensus_round, roundInputs, roster, roster_swapped, orderBehavior,
      processPersona, RoundResult.init, consensus_threshold, update_proposal,
      create_proposed_decision, emptySynthesis, handle_no_consensus, list_set, list_set_aux]
     <;> decide)

/-- Embedding of `DebateCoordinator._check_early_consensus`: early exit when there are
agreements, no disagreements, and at least three agreements. -/
def check_early_consensus (round : DiscussionRoundResult) : Bool :=
  decide (0 < round.agreements.length) && decide (round.disagreements.length = 0)
    && decide (3 ≤ round.agreements.length)

/-- Source constant `self.discussion_rounds` (debate_coordinator.py line 19). -/
def discussion_rounds : ℕ := 3

/-- Per-round contributions of one discussion round. -/
def discussionInputs (names : List String)
    (behavior : ℕ → String → Except String Contribution) (round_num : ℕ) :
    List (String × Except String Contribution) :=
  names.map fun n => (n, behavior round_num n)

/-- The `for round_num in range(self.discussion_rounds)` loop of
`DebateCoordinator.coordinate_discussion`: run a round, stop early when
`_check_early_consensus` fires, otherwise continue until the budget is
exhausted. -/
def runDiscussionRounds (names : List String)
    (behavior : ℕ → String → Except String Contribution) :
    ℕ → ℕ → List DiscussionRoundResult → List DiscussionRoundResult
  | 0, _, acc => acc
  | fuel + 1, round_num, acc =>
      let r := conduct_discussion_round round_num (discussionInputs names behavior round_num)
      if check_early_consensus r then acc ++ [r]
      else runDiscussionRounds names behavior fuel (round_num + 1) (acc ++ [r])

/-- Embedding of `DebateCoordinator._identify_key_themes`. -/
def identify_key_themes (items : List String) : List String :=
  if items = [] then [] else (list_set items).take 5

/-- Embedding of `DebateCoordinator._extract_insights`. -/
def extract_insights (improvements challenges : List String) : List String :=
  (list_set (improvements ++ challenges)).take 3

/-- Embedding of `DebateCoordinator._identify_synthesis_areas`. -/
def identify_synthesis_areas (agreements disagreements insights : List String) :
    List String :=
  (if disagreements ≠ [] then ["Resolve conflicting viewpoints"] else [])
    ++ (if 2 < insights.length then ["Integrate multiple insights"] else [])
    ++ (if agreements ≠ [] ∧ disagreements ≠ [] then
          ["Balance agreed principles with disputed details"] else [])

/-- Discussion results dict of `DebateCoordinator.coordinate_discussion`
after `_analyze_discussion_results` has been folded in. -/
structure DiscussionResults where
  rounds : List DiscussionRoundResult
  key_agreements : List String
  key_disagreements : List String
  emerging_insights : List String
  areas_for_synthesis : List String
deriving Repr, DecidableEq

/-- Embedding of `DebateCoordinator.coordinate_discussion`. -/
def coordinate_discussion (names : List String)
    (behavior : ℕ → String → Except String Contribution) : DiscussionResults :=
  let rounds := runDiscussionRounds names behavior discussion_rounds 1 []
  let all_agreements := rounds.flatMap fun r => r.agreements
  let all_disagreements := rounds.flatMap fun r => r.disagreements
  let all_challenges := rounds.flatMap fun r => r.challenges
  let all_improvements := rounds.flatMap fun r => r.improvements
  let key_agreements := identify_key_themes all_agreements
  let key_disagreements := identify_key_themes all_disagreements
  let emerging_insights := extract_insights all_improvements all_challenges
  { rounds := rounds
    key_agreements := key_agreements
    key_disagreements := key_disagreements
    emerging_insights := emerging_insights
    areas_for_synthesis :=
      identify_synthesis_areas key_agreements key_disagreements emerging_insights }

theorem runDiscussionRounds_spec (names : List String)
    (behavior : ℕ → String → Except String Contribution) (fuel : ℕ) :
    ∀ (round_num : ℕ) (acc : List DiscussionRoundResult),
      (∀ r ∈ acc, check_early_consensus r = false) →
      (let rs := runDiscussionRounds names behavior fuel round_num acc
       rs.length ≤ acc.length + fuel
       ∧ (∀ r ∈ rs.dropLast, check_early_consensus r = false)
       ∧ (rs.length < acc.length + fuel →
            ∃ r, rs.getLast? = some r ∧ check_early_consensus r = true)) := by
  induction fuel with
  | zero =>
      intro round_num acc hacc
      simp only [runDiscussionRounds]
      refine ⟨by omega, fun r hr => hacc r (mem_dropLast_imp_mem hr), ?_⟩
      intro h
      exact absurd h (by omega)
  | succ fuel ih =>
      intro round_num acc hacc
      rw [runDiscussionRounds]
      by_cases hr : check_early_consensus
          (conduct_discussion_round round_num (discussionInputs names behavior round_num)) = true
      · rw [if_pos hr]
        refine ⟨?_, ?_, ?_⟩
        · simp only [List.length_append, List.length_cons, List.length_nil]
          omega
        · intro x hx
          rw [List.dropLast_concat] at hx
          exact hacc x hx
        · intro _
          exact ⟨_, List.getLast?_concat _, hr⟩
      · rw [if_neg hr]
        have hacc2 : ∀ x ∈ acc ++ [conduct_discussion_round round_num
            (discussionInputs names behavior round_num)], check_early_consensus x = false := by
          intro x hx
          rcases List.mem_append.mp hx with hx | hx
          · exact hacc x hx
          · rw [List.mem_singleton.mp hx]
            exact Bool.not_eq_true _ ▸ hr
        obtain ⟨h1, h2, h3⟩ := ih (round_num + 1) _ hacc2
        simp only [List.length_append, List.length_cons, List.length_nil] at h1 h3
        refine ⟨by omega, h2, ?_⟩
        intro h
        exact h3 (by omega)

/-- C4.  The Discussion Coordinator executes at most 3 rounds; every round
that was followed by another one failed the early-exit check; if fewer than 3
rounds ran, the last executed round passed it; and the check passes exactly
when the round collected at least 3 agreement items and exactly 0
disagreement items. -/
theorem discussion_coordinator_early_exit_spec (names : List String)
    (behavior : ℕ → String → Except String Contribution) :
    (coordinate_discussion names behavior).rounds.length ≤ 3
    ∧ (∀ r ∈ (coordinate_discussion names behavior).rounds.dropLast,
        check_early_consensus r = false)
    ∧ ((coordinate_discussion names behavior).rounds.length < 3 →
        ∃ r, (coordinate_discussion names behavior).rounds.getLast? = some r
          ∧ check_early_consensus r = true)
    ∧ (∀ r : DiscussionRoundResult, check_early_consensus r = true ↔
        3 ≤ r.agreements.length ∧ r.disagreements.length = 0) := by
  have hrounds : (coordinate_discussion names behavior).rounds
      = runDiscussionRounds names behavior discussion_rounds 1 [] := rfl
  obtain ⟨h1, h2, h3⟩ := runDiscussionRounds_spec names behavior discussion_rounds 1 []
    (by intro r hr; simp at hr)
  rw [hrounds]
  refine ⟨by simpa [discussion_rounds] using h1, h2,
    by simpa [discussion_rounds] using h3, ?_⟩
  intro r
  simp only [check_early_consensus, Bool.and_eq_true, decide_eq_true_eq]
  constructor
  · rintro ⟨⟨-, hd⟩, ha⟩
    exact ⟨ha, hd⟩
  · rintro ⟨ha, hd⟩
    exact ⟨⟨by omega, hd⟩, ha⟩

/-- Instantiation of C4: one persona contributing three agreement items and
nothing else makes the coordinator stop after round 1. -/
theorem discussion_coordinator_early_exit_instance :
    (coordinate_discussion ["architect"]
        (fun _ _ => Except.ok ⟨["a1", "a2", "a3"], [], [], []⟩)).rounds.length ≤ 3 :=
  (discussion_coordinator_early_exit_spec _ _).1

/-- Clamp to the unit interval, the formulation used by the specification. -/
def clamp01 (x : ℚ) : ℚ := min 1 (max 0 x)

/-- Embedding of `DebateCoordinator._assess_synthesis_confidence`: the three confidence
factors of the source, averaged (the guard for an empty factor list is kept
although three factors are always present). -/
def assess_synthesis_confidence (synthesis : SynthesisResults) : ℚ :=
  let agreements_count := synthesis.integrated_solution.core_principles.length
  let tensions_count := synthesis.remaining_tensions.length
  let resolved_count := synthesis.resolved_conflicts.length
  let confidence_factors : List ℚ :=
    [min 1 ((agreements_count : ℚ) / 3),
     max 0 (1 - (tensions_count : ℚ) / 5),
     min 1 ((resolved_count : ℚ) / 3)]
  if confidence_factors = [] then 1/2
  else confidence_factors.sum / (confidence_factors.length : ℚ)

/-- C5.  The synthesis confidence is the arithmetic mean of the three ratios
of the claim, each clamped to the unit interval: agreements found over 3, one
minus remaining tensions over 5, and resolved conflicts over 3. -/
theorem synthesis_confidence_formula (synthesis : SynthesisResults) :
    assess_synthesis_confidence synthesis =
      (clamp01 ((synthesis.integrated_solution.core_principles.length : ℚ) / 3)
        + clamp01 (1 - (synthesis.remaining_tensions.length : ℚ) / 5)
        + clamp01 ((synthesis.resolved_conflicts.length : ℚ) / 3)) / 3 := by
  have h1 : clamp01 ((synthesis.integrated_solution.core_principles.length : ℚ) / 3)
      = min 1 ((synthesis.integrated_solution.core_principles.length : ℚ) / 3) := by
    unfold clamp01
    rw [max_eq_right (by positivity)]
  have h2 : clamp01 (1 - (synthesis.remaining_tensions.length : ℚ) / 5)
      = max 0 (1 - (synthesis.remaining_tensions.length : ℚ) / 5) := by
    unfold clamp01
    rw [min_eq_right]
    apply max_le (by norm_num)
    have : (0 : ℚ) ≤ (synthesis.remaining_tensions.length : ℚ) / 5 := by positivity
    linarith
  have h3 : clamp01 ((synthesis.resolved_conflicts.length : ℚ) / 3)
      = min 1 ((synthesis.resolved_conflicts.length : ℚ) / 3) := by
    unfold clamp01
    rw [max_eq_right (by positivity)]
  rw [h1, h2, h3]
  simp only [assess_synthesis_confidence, List.sum_cons, List.sum_nil, List.length_cons,
    List.length_nil, reduceCtorEq, if_false]
  push_cast
  ring

/-- Instantiation of C5 on a synthesis with two core principles, one
remaining tension and one resolved conflict. -/
theorem synthesis_confidence_formula_instance :
    assess_synthesis_confidence ⟨⟨["p1", "p2"], [], [], []⟩, ["r1"], ["t1"], ""⟩
      = (clamp01 ((2 : ℚ) / 3) + clamp01 (1 - (1 : ℚ) / 5) + clamp01 ((1 : ℚ) / 3)) / 3 := by
  have h := synthesis_confidence_formula ⟨⟨["p1", "p2"], [], [], []⟩, ["r1"], ["t1"], ""⟩
  simpa using h

/-- A participant outcome that is not an agreeing vote: every successful vote
it may carry has `agreement = False` (a raised error also qualifies). -/
def declines_agreement (o : Except String ConsensusInput) : Prop :=
  ∀ ci, o = Except.ok ci → ci.agreement = false

theorem round_score_all_disagree (names : List String)
    (behavior : ℕ → String → Except String ConsensusInput) (round_num : ℕ)
    (h : ∀ n ∈ names, declines_agreement (behavior round_num n)) :
    (conduct_consensus_round round_num (roundInputs names behavior round_num)).consensus_score
      = 0 := by
  rw [round_score]
  have hc : (roundInputs names behavior round_num).countP (fun p => agreement_of p.2) = 0 := by
    rw [List.countP_eq_zero]
    intro p hp
    simp only [roundInputs, List.mem_map] at hp
    obtain ⟨n, hn, rfl⟩ := hp
    cases ho : behavior round_num n with
    | ok ci => simpa [agreement_of, ho] using h n hn ci ho
    | error e => simp [agreement_of, ho]
  rw [hc]
  split <;> norm_num

theorem runConsensusRounds_three_all_below (names : List String)
    (behavior : ℕ → String → Except String ConsensusInput) (p : Proposal)
    (h : ∀ round_num, (conduct_consensus_round round_num
        (roundInputs names behavior round_num)).consensus_score < consensus_threshold) :
    runConsensusRounds names behavior 3 1 p [] =
      ([conduct_consensus_round 1 (roundInputs names behavior 1),
        conduct_consensus_round 2 (roundInputs names behavior 2),
        conduct_consensus_round 3 (roundInputs names behavior 3)],
       update_proposal (update_proposal (update_proposal p
           (conduct_consensus_round 1 (roundInputs names behavior 1)))
           (conduct_consensus_round 2 (roundInputs names behavior 2)))
           (conduct_consensus_round 3 (roundInputs names behavior 3)),
       none) := by
  have e1 := not_le.mpr (h 1)
  have e2 := not_le.mpr (h 2)
  have e3 := not_le.mpr (h 3)
  simp [runConsensusRounds, e1, e2, e3]

theorem list_set_take_three_eq_nil (xs : List String) :
    (list_set xs).take 3 = [] ↔ xs = [] := by
  constructor
  · intro h
    rcases List.take_eq_nil_iff.mp h with h3 | hnil
    · exact absurd h3 (by norm_num)
    · exact (list_set_eq_nil xs).mp hnil
  · intro h
    subst h
    simp [list_set, list_set_aux]

/-- C6 amended.  When all 5 participants decline to agree in every round, the
session executes exactly 3 rounds, reports `consensus_reached = false`, and
emits a fallback decision wrapping the last proposal (the initial proposal
folded through the three rounds of feedback); its dissenting-views and
unresolved-issues lists are the deduplicated concerns and critical issues
collected over the rounds, each capped at 3 entries and duplicate-free, and
each is non-empty exactly when some round collected such an item — a bare
disagree vote with no stated concern leaves them empty. -/
theorem all_disagree_fallback_spec
    (behavior : ℕ → String → Except String ConsensusInput) (synthesis : SynthesisResults)
    (h : ∀ round_num, ∀ n ∈ roster, declines_agreement (behavior round_num n)) :
    roster.length = 5
    ∧ (build_consensus roster behavior synthesis).consensus_reached = false
    ∧ (build_consensus roster behavior synthesis).consensus_rounds.length = 3
    ∧ ∃ fb, (build_consensus roster behavior synthesis).final_decision
          = FinalDecision.fallback fb
        ∧ fb.approach = "Majority decision with minority concerns noted"
        ∧ fb.primary_solution
            = (build_consensus roster behavior synthesis).consensus_rounds.foldl
                update_proposal (create_proposed_decision synthesis)
        ∧ fb.dissenting_views
            = (list_set ((build_consensus roster behavior synthesis).consensus_rounds.flatMap
                fun r => r.concerns)).take 3
        ∧ fb.unresolved_issues
            = (list_set ((build_consensus roster behavior synthesis).consensus_rounds.flatMap
                fun r => r.critical_issues)).take 3
        ∧ fb.dissenting_views.length ≤ 3 ∧ fb.dissenting_views.Nodup
        ∧ fb.unresolved_issues.length ≤ 3 ∧ fb.unresolved_issues.Nodup
        ∧ (fb.dissenting_views = [] ↔
            ((build_consensus roster behavior synthesis).consensus_rounds.flatMap
                fun r => r.concerns) = [])
        ∧ (fb.unresolved_issues = [] ↔
            ((build_consensus roster behavior synthesis).consensus_rounds.flatMap
                fun r => r.critical_issues) = []) := by
  have hlt : ∀ round_num, (conduct_consensus_round round_num
      (roundInputs roster behavior round_num)).consensus_score < consensus_threshold := by
    intro round_num
    rw [round_score_all_disagree roster behavior round_num (h round_num)]
    norm_num [consensus_threshold]
  have hrun := runConsensusRounds_three_all_below roster behavior
    (create_proposed_decision synthesis) hlt
  have hbc : build_consensus roster behavior synthesis
      = assemble_consensus
          (runConsensusRounds roster behavior max_consensus_rounds 1
            (create_proposed_decision synthesis) []).1
          (runConsensusRounds roster behavior max_consensus_rounds 1
            (create_proposed_decision synthesis) []).2.1
          (runConsensusRounds roster behavior max_consensus_rounds 1
            (create_proposed_decision synthesis) []).2.2 := rfl
  rw [show max_consensus_rounds = 3 from rfl, hrun] at hbc
  refine ⟨rfl, ?_, ?_, ?_⟩
  · rw [hbc]; rfl
  · rw [hbc]; rfl
  · refine ⟨handle_no_consensus
        (update_proposal (update_proposal (update_proposal (create_proposed_decision synthesis)
            (conduct_consensus_round 1 (roundInputs roster behavior 1)))
            (conduct_consensus_round 2 (roundInputs roster behavior 2)))
            (conduct_consensus_round 3 (roundInputs roster behavior 3)))
        [conduct_consensus_round 1 (roundInputs roster behavior 1),
         conduct_consensus_round 2 (roundInputs roster behavior 2),
         conduct_consensus_round 3 (roundInputs roster behavior 3)], ?_, rfl, ?_, ?_, ?_,
        ?_, ?_, ?_, ?_, ?_, ?_⟩
    · rw [hbc]; rfl
    · rw [hbc]
      simp [assemble_consensus, handle_no_consensus, List.foldl]
    · rw [hbc]; rfl
    · rw [hbc]; rfl
    · exact List.length_take_le _ _
    · exact List.Nodup.sublist (List.take_sublist _ _) (list_set_nodup _)
    · exact List.length_take_le _ _
    · exact List.Nodup.sublist (List.take_sublist _ _) (list_set_nodup _)
    · rw [hbc]
      exact list_set_take_three_eq_nil _
    · rw [hbc]
      exact list_set_take_three_eq_nil _

/-- Behaviour in which every persona votes a bare disagree (no concerns, no
critical issues) in every round. -/
def constDisagree : ℕ → String → Except String ConsensusInput :=
  fun _ _ => Except.ok ⟨false, 3/10, [], [], [], []⟩

/-- Whether a final decision is the no-consensus fallback. -/
def FinalDecision.is_fallback : FinalDecision → Bool
  | .fallback _ => true
  | .consensus _ => false

/-- The dissenting-views list of a fallback decision, if any. -/
def FinalDecision.fallback_dissenting : FinalDecision → Option (List String)
  | .fallback fb => some fb.dissenting_views
  | .consensus _ => none

/-- The unresolved-issues list of a fallback decision, if any. -/
def FinalDecision.fallback_unresolved : FinalDecision → Option (List String)
  | .fallback fb => some fb.unresolved_issues
  | .consensus _ => none

/-- C6 counterexample.  With the 5-persona roster all voting a bare disagree
in all 3 rounds (`constDisagree`), the session does terminate after round 3
without consensus and with a fallback decision, but the dissenting-views and
unresolved-issues lists of that fallback are empty, contradicting the claimed
non-emptiness. -/
theorem fallback_dissent_empty_counterexample :
    (build_consensus roster constDisagree emptySynthesis).consensus_reached = false
    ∧ (build_consensus roster constDisagree emptySynthesis).consensus_rounds.length = 3
    ∧ (build_consensus roster constDisagree
        emptySynthesis).final_decision.is_fallback = true
    ∧ (build_consensus roster constDisagree
        emptySynthesis).final_decision.fallback_dissenting = some []
    ∧ (build_consensus roster constDisagree
        emptySynthesis).final_decision.fallback_unresolved = some [] := by
  refine ⟨?_, ?_, ?_, ?_, ?_⟩ <;>
    (norm_num [build_consensus, max_consensus_rounds, runConsensusRounds, assemble_consensus,
      conduct_consensus_round, roundInputs, roster, constDisagree, processPersona,
      RoundResult.init, consensus_threshold, update_proposal, create_proposed_decision,
      emptySynthesis, handle_no_consensus, list_set, list_set_aux,
      FinalDecision.is_fallback, FinalDecision.fallback_dissenting,
      FinalDecision.fallback_unresolved]
     <;> decide)

/-- Instantiation of the amended C6 at the bare-disagree behaviour. -/
theorem all_disagree_fallback_spec_instance :
    (build_consensus roster constDisagree emptySynthesis).consensus_reached = false :=
  (all_disagree_fallback_spec constDisagree emptySynthesis
    (by
      intro round_num n _ ci hci
      exact (Except.ok.inj hci) ▸ rfl)).2.1

/-- The ordered workflow-phase list of `SystemManager._calculate_progress`. -/
def phases : List String :=
  ["requirements_analysis", "architecture_design", "task_decomposition",
   "implementation", "quality_assurance", "output_assembly", "final_validation"]

/-- Model of pythonic `list.index` returning `none` where the source raises
`ValueError`. -/
def list_index : List String → String → Option ℕ
  | [], _ => none
  | a :: l, x => if a = x then some 0 else (list_index l x).map (· + 1)

/-- Embedding of `SystemManager._calculate_progress`: 100 when completed, 0 when failed,
otherwise the phase index over the phase count, as a percentage (0 when the
phase is unknown, where the source catches `ValueError`). -/
def calculate_progress (status : String) (current_phase : String) : ℚ :=
  if status = "completed" then 100
  else if status = "failed" then 0
  else
    match list_index phases current_phase with
    | some i => ((i : ℚ) / (phases.length : ℚ)) * 100
    | none => 0

/-- The `(status, current_phase)` pairs a successful run of
`SystemManager._process_project` passes through, in order: the entry created
by `create_project`, the pair written at the start of each of the seven
phase methods, and the terminal write of `_complete_project` (which leaves
`current_phase` untouched). -/
def successful_run_trace : List (String × String) :=
  [("created", "requirements_analysis"),
   ("analyzing_requirements", "requirements_analysis"),
   ("designing_architecture", "architecture_design"),
   ("decomposing_tasks", "task_decomposition"),
   ("implementing", "implementation"),
   ("testing", "quality_assurance"),
   ("assembling", "output_assembly"),
   ("validating", "final_validation"),
   ("completed", "final_validation")]

/-- C7.  Reported progress is the current phase index over 7 as a percentage
for every active non-terminal status, exactly 100 for `completed`, exactly 0
for `failed`, and monotonically non-decreasing along the state sequence of a
successful run, which ends at exactly 100. -/
theorem project_progress_spec :
    (∀ status phase i, status ≠ "completed" → status ≠ "failed" →
        list_index phases phase = some i →
        calculate_progress status phase = ((i : ℚ) / 7) * 100)
    ∧ (∀ phase, calculate_progress "completed" phase = 100)
    ∧ (∀ phase, calculate_progress "failed" phase = 0)
    ∧ List.Chain' (· ≤ ·)
        (successful_run_trace.map fun s => calculate_progress s.1 s.2)
    ∧ (successful_run_trace.map fun s => calculate_progress s.1 s.2).getLast? = some 100
    ∧ phases.length = 7 := by
  refine ⟨?_, ?_, ?_, ?_, ?_, rfl⟩
  · intro status phase i hc hf hi
    rw [calculate_progress, if_neg hc, if_neg hf, hi]
    norm_num [phases]
  · intro phase
    rw [calculate_progress, if_pos rfl]
  · intro phase
    rw [calculate_progress, if_neg (by decide), if_pos rfl]
  · simp [successful_run_trace, calculate_progress, phases, list_index, List.chain'_cons]
    norm_num
  · simp [successful_run_trace, calculate_progress, phases, list_index]

/-- Instantiation of C7 for the implementation phase of an active project. -/
theorem project_progress_spec_instance :
    calculate_progress "implementing" "implementation" = ((3 : ℚ) / 7) * 100 :=
  project_progress_spec.1 "implementing" "implementation" 3 (by decide) (by decide)
    (by decide)

/-- In-memory entry of `self.active_projects` restricted to the fields that
C8 reads (`_fail_project` stores the error message only here). -/
structure ProjectData where
  status : String
  current_phase : String
  error_message : Option String
deriving Repr, DecidableEq

/-- The seven phase methods of `SystemManager._process_project` in order:
each writes this `(status, current_phase)` pair before doing its work. -/
def phase_sequence : List (String × String) :=
  [("analyzing_requirements", "requirements_analysis"),
   ("designing_architecture", "architecture_design"),
   ("decomposing_tasks", "task_decomposition"),
   ("implementing", "implementation"),
   ("testing", "quality_assurance"),
   ("assembling", "output_assembly"),
   ("validating", "final_validation")]

/-- The phase names in workflow order. -/
def phase_names : List String := phase_sequence.map fun s => s.2

/-- The entry `create_project` stores in `self.active_projects`. -/
def initial_project_data : ProjectData :=
  { status := "created", current_phase := "requirements_analysis", error_message := none }

/-- The phase loop of `SystemManager._process_project`: each phase sets its
status pair and runs its work (`outcomes`), an unhandled error triggers
`_fail_project` (status `failed`, message recorded, no later phase runs),
success of all phases triggers `_complete_project`.  Returns the final
project entry and the list of phases that executed. -/
def run_phases (outcomes : String → Except String Unit) :
    List (String × String) → ProjectData → List String → ProjectData × List String
  | [], pd, executed => ({ pd with status := "completed" }, executed)
  | (st, ph) :: rest, pd, executed =>
      let pd2 : ProjectData := { pd with status := st, current_phase := ph }
      match outcomes ph with
      | .ok _ => run_phases outcomes rest pd2 (executed ++ [ph])
      | .error e =>
          ({ pd2 with status := "failed", error_message := some e }, executed ++ [ph])

/-- Embedding of `SystemManager._process_project` over the seven phases. -/
def process_project (outcomes : String → Except String Unit) : ProjectData × List String :=
  run_phases outcomes phase_sequence initial_project_data []

/-- The dict returned by `SystemManager.get_project_status` for a project in
`self.active_projects`: exactly the keys `project_uuid`, `status`,
`current_phase`, `created_at` (a timestamp, elided) and `progress` — and
nothing else. -/
structure StatusReport where
  project_uuid : String
  status : String
  current_phase : String
  progress : ℚ
deriving Repr, DecidableEq

/-- Embedding of `SystemManager.get_project_status` (active-project branch; a failed
project is never removed from `self.active_projects`). -/
def get_project_status (uuid : String) (pd : ProjectData) : StatusReport :=
  { project_uuid := uuid
    status := pd.status
    current_phase := pd.current_phase
    progress := calculate_progress pd.status pd.current_phase }

/-- First phase (name and message) whose work raises, if any. -/
def first_failing (outcomes : String → Except String Unit) : List String → Option (String × String)
  | [] => none
  | ph :: rest =>
      match outcomes ph with
      | .ok _ => first_failing outcomes rest
      | .error e => some (ph, e)

theorem run_phases_failure (outcomes : String → Except String Unit) :
    ∀ (seq : List (String × String)) (pd : ProjectData) (executed : List String)
      (ph e : String),
      first_failing outcomes (seq.map fun s => s.2) = some (ph, e) →
      ((run_phases outcomes seq pd executed).1.status = "failed"
        ∧ (run_phases outcomes seq pd executed).1.error_message = some e
        ∧ (run_phases outcomes seq pd executed).1.current_phase = ph
        ∧ ∃ k, 0 < k
            ∧ (run_phases outcomes seq pd executed).2
                = executed ++ (seq.map fun s => s.2).take k
            ∧ ((seq.map fun s => s.2).drop (k - 1)).head? = some ph) := by
  intro seq
  induction seq with
  | nil => intro pd executed ph e hf; exact absurd hf (by simp [first_failing])
  | cons head rest ih =>
      intro pd executed ph e hf
      obtain ⟨st, ph0⟩ := head
      simp only [List.map_cons, first_failing] at hf
      cases ho : outcomes ph0 with
      | ok u =>
          rw [ho] at hf
          simp only [run_phases, ho]
          obtain ⟨h1, h2, h3, k, hk, hex, hget⟩ := ih _ (executed ++ [ph0]) ph e hf
          refine ⟨h1, h2, h3, k + 1, by omega, ?_, ?_⟩
          · rw [hex]
            simp [List.take_succ_cons]
          · obtain ⟨j, rfl⟩ : ∃ j, k = j + 1 := ⟨k - 1, by omega⟩
            simpa using hget
      | error e0 =>
          rw [ho] at hf
          simp only [Option.some.injEq, Prod.mk.injEq] at hf
          obtain ⟨rfl, rfl⟩ := hf
          refine ⟨by simp [run_phases, ho], by simp [run_phases, ho],
            by simp [run_phases, ho], 1, by omega, ?_, ?_⟩
          · simp [run_phases, ho]
          · simp

theorem run_phases_success (outcomes : String → Except String Unit) :
    ∀ (seq : List (String × String)) (pd : ProjectData) (executed : List String),
      first_failing outcomes (seq.map fun s => s.2) = none →
      ((run_phases outcomes seq pd executed).1.status = "completed"
        ∧ (run_phases outcomes seq pd executed).1.error_message = pd.error_message
        ∧ (run_phases outcomes seq pd executed).2
            = executed ++ (seq.map fun s => s.2)) := by
  intro seq
  induction seq with
  | nil => intro pd executed _; simp [run_phases]
  | cons head rest ih =>
      intro pd executed hf
      obtain ⟨st, ph0⟩ := head
      simp only [List.map_cons, first_failing] at hf
      cases ho : outcomes ph0 with
      | ok u =>
          rw [ho] at hf
          simp only [run_phases, ho]
          obtain ⟨h1, h2, h3⟩ := ih _ (executed ++ [ph0]) hf
          exact ⟨h1, h2, by rw [h3]; simp⟩
      | error e0 =>
          rw [ho] at hf
          exact absurd hf (by simp)

/-- C8 amended.  An unhandled error in any phase transitions the project to
status `failed` with the error message recorded in the in-memory project
entry; no later phase executes (the executed phases are precisely the prefix
of the workflow ending at the failing phase) and there is no automatic retry
(no phase executes twice).  A subsequent status query reports status
`failed`, the failing phase and progress 0, but consists only of the project
id, status, phase and progress fields: the captured error message is not part
of the report. -/
theorem phase_failure_spec (outcomes : String → Except String Unit)
    (uuid ph e : String)
    (hf : first_failing outcomes phase_names = some (ph, e)) :
    (process_project outcomes).1.status = "failed"
    ∧ (process_project outcomes).1.error_message = some e
    ∧ (process_project outcomes).1.current_phase = ph
    ∧ (∃ k, 0 < k ∧ (process_project outcomes).2 = phase_names.take k
        ∧ (phase_names.drop (k - 1)).head? = some ph)
    ∧ (process_project outcomes).2.Nodup
    ∧ get_project_status uuid (process_project outcomes).1
        = { project_uuid := uuid, status := "failed", current_phase := ph, progress := 0 } := by
  have hseq : phase_names = phase_sequence.map fun s => s.2 := rfl
  obtain ⟨h1, h2, h3, k, hk, hex, hget⟩ :=
    run_phases_failure outcomes phase_sequence initial_project_data [] ph e (hseq ▸ hf)
  have hpd : (process_project outcomes).1
      = (run_phases outcomes phase_sequence initial_project_data []).1 := rfl
  have hex2 : (process_project outcomes).2 = phase_names.take k := by
    rw [show (process_project outcomes).2
        = (run_phases outcomes phase_sequence initial_project_data []).2 from rfl, hex]
    simp [hseq]
  refine ⟨hpd ▸ h1, hpd ▸ h2, hpd ▸ h3, ⟨k, hk, hex2, hseq ▸ hget⟩, ?_, ?_⟩
  · rw [hex2]
    exact List.Nodup.sublist (List.take_sublist _ _) (by decide)
  · rw [get_project_status, hpd, h1, h3]
    rw [calculate_progress, if_neg (by decide), if_pos rfl]

/-- Instantiation of the amended C8: the task-decomposition phase raising
`decomposer offline` fails the project there, with the first three phases
executed and a report that carries no error field. -/
theorem phase_failure_spec_instance :
    ((process_project fun p =>
        if p = "task_decomposition" then Except.error "decomposer offline"
        else Except.ok ()).1.status = "failed") :=
  (phase_failure_spec _ "p-1" "task_decomposition" "decomposer offline" (by decide)).1

/-- C8 counterexample.  The claim says a status query for a failed project
returns the captured error message verbatim.  With the first phase raising
`boom`, the message is captured in the project entry, but the status report —
which consists of exactly the project id, status, current phase and numeric
progress — contains the message in none of its fields. -/
theorem failed_status_query_counterexample :
    ((process_project fun _ => Except.error "boom").1.error_message = some "boom")
    ∧ (get_project_status "p-1" (process_project fun _ => Except.error "boom").1).status
        = "failed"
    ∧ (get_project_status "p-1" (process_project fun _ => Except.error "boom").1).status
        ≠ "boom"
    ∧ (get_project_status "p-1" (process_project fun _ => Except.error "boom").1).project_uuid
        ≠ "boom"
    ∧ (get_project_status "p-1"
        (process_project fun _ => Except.error "boom").1).current_phase
        ≠ "boom" := by
  refine ⟨?_, ?_, ?_, ?_, ?_⟩ <;>
    (norm_num [process_project, run_phases, phase_sequence, initial_project_data,
      get_project_status, calculate_progress, phases, list_index]
     <;> decide)

/-- Result dict of `BasePersona.analyze_problem` (the body that would run on a
well-formed call). -/
structure Analysis where
  persona : String
  specialization : String
  analysis : String
  confidence : ℚ
  key_points : List String
  recommendations : List String
  concerns : List String
deriving Repr, DecidableEq

/-- Entry stored in `individual_analyses`: the analysis dict, or the error
record `\x7b"error": msg, "confidence": 0.0\x7d` written by
`HiveCollectiveManager._conduct_individual_analysis` when the call raised. -/
inductive AnalysisRecord where
  | ok (a : Analysis)
  | errorEntry (msg : String)
deriving Repr, DecidableEq

/-- The `confidence` read from a recorded analysis (`0.0` in the error
record). -/
def AnalysisRecord.confidence_value : AnalysisRecord → ℚ
  | .ok a => a.confidence
  | .errorEntry _ => 0

/-- Number of positional arguments `BasePersona.analyze_problem` requires
beyond `self`: `problem_description` and `context` (base_persona.py line
69). -/
def analyze_problem_required_args : ℕ := 2

/-- Number of positional arguments the hive manager supplies at the call
`persona.analyze_problem(problem_context)` (hive_manager.py line 271). -/
def hive_analyze_call_args : ℕ := 1

/-- The `TypeError` message raised by the runtime for the mismatched call. -/
def analyze_type_error : String :=
  "TypeError: analyze_problem() missing 1 required positional argument: context"

/-- Calling `analyze_problem` with a given number of positional arguments:
the runtime raises a `TypeError` before the body runs unless the arity
matches; `body` is the outcome the body would produce. -/
def call_analyze_problem (supplied_args : ℕ) (body : Except String Analysis) :
    Except String Analysis :=
  if supplied_args = analyze_problem_required_args then body
  else Except.error analyze_type_error

/-- Embedding of `HiveCollectiveManager._conduct_individual_analysis`: each persona is
called with one positional argument; a raised error is caught per persona and
recorded as an error entry, then the loop continues. -/
def conduct_individual_analysis (names : List String)
    (bodies : String → Except String Analysis) : List (String × AnalysisRecord) :=
  names.map fun n =>
    (n, match call_analyze_problem hive_analyze_call_args (bodies n) with
        | .ok a => AnalysisRecord.ok a
        | .error e => AnalysisRecord.errorEntry e)

/-- The phases of `HiveCollectiveManager._execute_debate` relevant to C9:
individual analysis (phase 2) followed unconditionally by collaborative
discussion (phase 3).  The later synthesis and consensus phases consume the
discussion output and are elided. -/
structure DebateExecution where
  individual_analyses : List (String × AnalysisRecord)
  discussion : DiscussionResults
deriving Repr

/-- Embedding of `HiveCollectiveManager._execute_debate` (phases 2 and 3). -/
def execute_debate (names : List String) (bodies : String → Except String Analysis)
    (discussion_behavior : ℕ → String → Except String Contribution) : DebateExecution :=
  { individual_analyses := conduct_individual_analysis names bodies
    discussion := coordinate_discussion names discussion_behavior }

/-- C9.  The hive manager supplies one positional argument where
`analyze_problem` requires two, so whatever analysis each persona body would
produce, every persona is recorded as an error entry (the raised `TypeError`)
with confidence 0, and the session still proceeds to the discussion phase. -/
theorem individual_analysis_arity_mismatch (names : List String)
    (bodies : String → Except String Analysis)
    (discussion_behavior : ℕ → String → Except String Contribution) :
    hive_analyze_call_args ≠ analyze_problem_required_args
    ∧ (execute_debate names bodies discussion_behavior).individual_analyses
        = names.map (fun n => (n, AnalysisRecord.errorEntry analyze_type_error))
    ∧ (execute_debate names bodies
        discussion_behavior).individual_analyses.all
          (fun p => decide (p.2.confidence_value = 0)) = true
    ∧ (execute_debate names bodies discussion_behavior).discussion
        = coordinate_discussion names discussion_behavior := by
  have hmap : (execute_debate names bodies discussion_behavior).individual_analyses
      = names.map (fun n => (n, AnalysisRecord.errorEntry analyze_type_error)) := by
    simp [execute_debate, conduct_individual_analysis, call_analyze_problem,
      hive_analyze_call_args, analyze_problem_required_args]
  refine ⟨by decide, hmap, ?_, rfl⟩
  rw [hmap]
  simp [List.all_eq_true, AnalysisRecord.confidence_value]

/-- Instantiation of C9 with the five-persona roster and a body that would
have succeeded with confidence 0.8. -/
theorem individual_analysis_arity_mismatch_instance :
    (execute_debate roster
        (fun n => Except.ok ⟨n, "spec", "analysis text", 8/10, [], [], []⟩)
        (fun _ _ => Except.ok ⟨[], [], [], []⟩)).individual_analyses
      = roster.map (fun n => (n, AnalysisRecord.errorEntry analyze_type_error)) :=
  (individual_analysis_arity_mismatch _ _ _).2.1

/-- Substring scan on character lists: does `pat` occur contiguously? -/
def sub_search (pat : List Char) : List Char → Bool
  | [] => pat.isEmpty
  | a :: l => pat.isPrefixOf (a :: l) || sub_search pat l

/-- Python `s.lower()`, at the character-list level. -/
def py_lower (s : String) : List Char := s.data.map Char.toLower

/-- Python `pat in l` for a lowered character list. -/
def py_in (pat : String) (l : List Char) : Bool := sub_search pat.data l

/-- Embedding of `BasePersona._extract_agreement_status`: true when the lowercased
response contains `yes`, `agree` or `support` as a substring. -/
def extract_agreement_status (response : String) : Bool :=
  py_in "yes" (py_lower response) || py_in "agree" (py_lower response)
    || py_in "support" (py_lower response)

/-- Embedding of `BasePersona._extract_confidence_score`.  The regex scan over the four
numeric confidence patterns is abstracted as `pattern_match` (the leading
numeric group, if some pattern matched — every pattern requires a digit);
the source then normalizes a value above 1 and otherwise falls back to a
default derived from the agreement status. -/
def extract_confidence_score (pattern_match : Option ℚ) (response : String) : ℚ :=
  match pattern_match with
  | some value =>
      if 1 < value then min (if value ≤ 100 then value / 100 else value / 10) 1
      else value
  | none => if extract_agreement_status response then 8/10 else 3/10

/-- Embedding of `BasePersona._extract_support_reasons`. -/
def extract_support_reasons (response : String) : List String :=
  if py_in "support" (py_lower response) || py_in "because" (py_lower response) then
    ["Support reason identified"]
  else []

/-- Embedding of `BasePersona._extract_concerns`. -/
def extract_concerns (response : String) : List String :=
  if py_in "concern" (py_lower response) || py_in "risk" (py_lower response) then
    ["Identified concern from analysis"]
  else []

/-- Embedding of `BasePersona._extract_modifications`. -/
def extract_modifications (response : String) : List String :=
  if py_in "modify" (py_lower response) || py_in "change" (py_lower response)
      || py_in "suggest" (py_lower response) then
    ["Modification suggestion identified"]
  else []

/-- Embedding of `BasePersona._extract_critical_issues`. -/
def extract_critical_issues (response : String) : List String :=
  if py_in "critical" (py_lower response) || py_in "must" (py_lower response)
      || py_in "essential" (py_lower response) then
    ["Critical issue identified"]
  else []

/-- The consensus-input dict `BasePersona.provide_consensus_input` builds
from the raw text completion. -/
def structure_consensus_input (response : String) (pattern_match : Option ℚ) :
    ConsensusInput :=
  { agreement := extract_agreement_status response
    confidence := extract_confidence_score pattern_match response
    support_reasons := extract_support_reasons response
    concerns := extract_concerns response
    suggested_modifications := extract_modifications response
    critical_issues := extract_critical_issues response }

/-- An explicit disagreement text used to exercise the extractor. -/
def disagree_response : String := "I disagree with the proposal"

/-- C10.  The agreement extractor answers true for every response whose
lowercasing contains `agree` as a substring — in particular for the explicit
disagreement text `I disagree with the proposal`, since `agree` is a
substring of `disagree`; with no numeric confidence pattern present such a
response receives the agreement-default confidence 0.8 rather than 0.3; and
a consensus round tallies the resulting vote as one agreement and zero
disagreements. -/
theorem agreement_extraction_substring_spec :
    (∀ s : String, py_in "agree" (py_lower s) = false
        ∨ extract_agreement_status s = true)
    ∧ py_in "disagree" (py_lower disagree_response) = true
    ∧ extract_agreement_status disagree_response = true
    ∧ extract_confidence_score none disagree_response = 8/10
    ∧ (conduct_consensus_round 1 [("architect",
        Except.ok (structure_consensus_input disagree_response none))]).agreements = 1
    ∧ (conduct_consensus_round 1 [("architect",
        Except.ok (structure_consensus_input disagree_response none))]).disagreements = 0 := by
  have hag : (structure_consensus_input disagree_response none).agreement = true := by decide
  refine ⟨?_, by decide, by decide, ?_, ?_, ?_⟩
  · intro s
    by_cases h : py_in "agree" (py_lower s) = true
    · right
      simp [extract_agreement_status, h]
    · left
      exact Bool.not_eq_true _ ▸ h
  · rw [extract_confidence_score, if_pos (by decide)]
  · rw [round_agreements]
    simp [List.countP_cons, agreement_of, hag]
  · rw [round_disagreements]
    simp [List.countP_cons, agreement_of, hag]

end MultiAgent
